import Mathlib

/-!
Verification development for the 4D documentation syntax checker
(tokenizer, malformation checker, parameter checker, parser orchestrator,
type validator).  Strings are embedded as `List Char`; every definition is
a direct shallow embedding of the corresponding TypeScript function.
Scanning loops that can consume more than one character per step are
expressed with an explicit fuel argument initialised to the input length;
each step consumes at least one character, so the fuel never runs out.
-/

/-- Convert a Lean string literal to the character-list representation used
throughout this development. -/
def str (s : String) : List Char := s.data

/-- Whitespace recognised by the tokenizer (space, tab, CR, LF), from
`Tokenizer.scanToken`. -/
def isWsChar (c : Char) : Bool :=
  c = ' ' || c = '\t' || c = '\n' || c = '\r'

/-- Identifier characters, mirroring the `IDENTIFIER_CHARS` lookup table of
`tokenizer.ts`: ASCII digits, letters, `_ - $ . / [ ] < >`, and every
non-ASCII code point. -/
def isIdentifierChar (c : Char) : Bool :=
  let code := c.toNat
  if code < 128 then
    (48 ≤ code && code ≤ 57) ||
    (65 ≤ code && code ≤ 90) ||
    (97 ≤ code && code ≤ 122) ||
    code = 95 || code = 45 || code = 36 || code = 46 ||
    code = 47 || code = 91 || code = 93 || code = 60 || code = 62
  else
    true

/-- Token kinds of `tokenizer.ts` (`TokenType`). -/
inductive TokenType where
  | parameterName
  | colon
  | type
  | semicolon
  | openBrace
  | closeBrace
  | openParen
  | closeParen
  | arrow
  | operator
  | spread
  | escapedAsterisk
  | lt
  | gt
  deriving DecidableEq, Repr

/-- A token: kind, literal text and source position (`Token` of
`tokenizer.ts`). -/
structure Token where
  type : TokenType
  value : List Char
  position : Nat
  deriving DecidableEq, Repr

/-- Context-sensitive classification of an identifier run, mirroring
`determineIdentifierTypeFast`: only a run immediately after a colon becomes
TYPE, every other context (including the absence of one) yields
PARAMETER_NAME. -/
def determineIdentifierTypeFast (ctx : Option TokenType) : TokenType :=
  match ctx with
  | some TokenType.colon => TokenType.type
  | some TokenType.semicolon => TokenType.parameterName
  | some TokenType.openBrace => TokenType.parameterName
  | some TokenType.openParen => TokenType.parameterName
  | some TokenType.parameterName => TokenType.parameterName
  | some TokenType.spread => TokenType.parameterName
  | some TokenType.type => TokenType.parameterName
  | _ => TokenType.parameterName

/-- Is the head of the character list the given character?  Encodes the
source's bounds-checked single-character look-ahead
`pos < input.length && input[pos] === c`. -/
def headCharIs (cs : List Char) (c : Char) : Bool :=
  match cs with
  | [] => false
  | x :: _ => x = c

/-- `Tokenizer.scanIdentifier`: if the run begins with exactly three dots
it is a SPREAD whose text keeps the `...` prefix and continues with the
identifier run after the dots; otherwise a maximal identifier run is
classified from the cached context, and a scan that advances zero
characters skips one character to guarantee forward progress. -/
def scanIdentifierStep (ctx : Option TokenType) (pos : Nat) (cs : List Char) :
    Option Token × Nat :=
  if headCharIs cs '.' && headCharIs (cs.drop 1) '.' && headCharIs (cs.drop 2) '.' then
    (some ⟨TokenType.spread,
      cs.take 3 ++ (cs.drop 3).takeWhile isIdentifierChar, pos⟩,
     3 + ((cs.drop 3).takeWhile isIdentifierChar).length)
  else if cs.takeWhile isIdentifierChar = [] then (none, 1)
  else (some ⟨determineIdentifierTypeFast ctx, cs.takeWhile isIdentifierChar, pos⟩,
    (cs.takeWhile isIdentifierChar).length)

/-- One iteration of `Tokenizer.scanToken`: given the cached context token
kind, the current position and the remaining input, produce the token
emitted (if any) and the number of characters consumed.  Mirrors the source
dispatch order: whitespace, the two-character sequences, the single
character tokens, then identifier scanning. -/
def scanTokenStep (ctx : Option TokenType) (pos : Nat) (cs : List Char) :
    Option Token × Nat :=
  match cs with
  | [] => (none, 0)
  | c :: rest =>
    if isWsChar c then (none, 1)
    else if c = '\\' && headCharIs rest '*' then
      (some ⟨TokenType.escapedAsterisk, ['\\', '*'], pos⟩, 2)
    else if c = '-' && headCharIs rest '>' then
      (some ⟨TokenType.arrow, ['-', '>'], pos⟩, 2)
    else if c = ':' then (some ⟨TokenType.colon, [c], pos⟩, 1)
    else if c = ';' then (some ⟨TokenType.semicolon, [c], pos⟩, 1)
    else if c = '\x7b' then (some ⟨TokenType.openBrace, [c], pos⟩, 1)
    else if c = '\x7d' then (some ⟨TokenType.closeBrace, [c], pos⟩, 1)
    else if c = '(' then (some ⟨TokenType.openParen, [c], pos⟩, 1)
    else if c = ')' then (some ⟨TokenType.closeParen, [c], pos⟩, 1)
    else if c = '*' then (some ⟨TokenType.operator, [c], pos⟩, 1)
    else if c = '<' then (some ⟨TokenType.lt, [c], pos⟩, 1)
    else if c = '>' then (some ⟨TokenType.gt, [c], pos⟩, 1)
    else scanIdentifierStep ctx pos (c :: rest)

/-- Scanning loop of `Tokenizer.tokenize`, with fuel.  The context kind is
updated exactly when a token is emitted (`addToken`). -/
def tokenizeAux : Nat → List Char → Nat → Option TokenType → List Token
  | 0, _, _, _ => []
  | _ + 1, [], _, _ => []
  | fuel + 1, c :: rest, pos, ctx =>
    match scanTokenStep ctx pos (c :: rest) with
    | (some t, n) => t :: tokenizeAux fuel ((c :: rest).drop n) (pos + n) (some t.type)
    | (none, n) => tokenizeAux fuel ((c :: rest).drop n) (pos + n) ctx

/-- `Tokenizer.tokenize`: scan the whole input from position 0 with no
initial context. -/
def tokenize (input : List Char) : List Token :=
  tokenizeAux input.length input 0 none

/-- Diagnostics of `types.ts`, one constructor per `WarningCode` (plus the
two id-less parenthesis diagnostics the orchestrator builds inline), each
carrying the arguments its message template takes. -/
inductive Issue where
  /-- MAL001, carries the residual brace depth. -/
  | unclosedOptionalBlock (braceCount : Int)
  /-- MAL002. -/
  | extraClosingBrace
  /-- MAL003. -/
  | emptyParameterDoubleSemicolon
  /-- MAL004. -/
  | emptyParameterAtStart
  /-- MAL005. -/
  | unexpectedColonNoParam
  /-- MAL006. -/
  | doubleColon
  /-- MAL007. -/
  | unexpectedSemicolonAfterColon
  /-- MAL008. -/
  | unexpectedClosingBraceAfterColon
  /-- MAL011. -/
  | missingClosingParenthesis
  /-- Parameter name containing an asterisk (malformation-checker.ts). -/
  | malformedParameterName (name : List Char)
  /-- Type text containing a forward slash (malformation-checker.ts). -/
  | invalidTypeForwardSlash (typeText : List Char)
  /-- PAR001. -/
  | parameterEmptyTypeAfterColon
  /-- PAR002, carries the parameter name. -/
  | parameterMissingType (paramName : List Char)
  /-- Inline issue of the orchestrator for a variant with no opening
  parenthesis. -/
  | missingOpeningParenthesis
  deriving DecidableEq, Repr

/-- Loop of `checkBraceBalanceFast`: running depth over the brace tokens,
emitting one EXTRA_CLOSING_BRACE per underflow and clamping the depth back
to zero; returns the accumulated issues and the residual depth. -/
def braceBalanceGo : List Token → Int → List Issue × Int
  | [], depth => ([], depth)
  | t :: rest, depth =>
    if t.type = TokenType.openBrace then braceBalanceGo rest (depth + 1)
    else if t.type = TokenType.closeBrace then
      if depth - 1 < 0 then
        let r := braceBalanceGo rest 0
        (Issue.extraClosingBrace :: r.1, r.2)
      else braceBalanceGo rest (depth - 1)
    else braceBalanceGo rest depth

/-- `MalformationChecker.checkBraceBalanceFast`: the underflow issues in
stream order, then one UNCLOSED_OPTIONAL_BLOCK with the residual depth if
it is positive. -/
def checkBraceBalanceFast (tokens : List Token) : List Issue :=
  let r := braceBalanceGo tokens 0
  r.1 ++ (if r.2 > 0 then [Issue.unclosedOptionalBlock r.2] else [])

/-- Is the head of the token list a token of the given kind?  Used to model
`nextToken && nextToken.type === k`. -/
def headIs (ts : List Token) (k : TokenType) : Bool :=
  match ts with
  | [] => false
  | t :: _ => t.type = k

/-- Loop of `checkEmptyParametersFast`; the flag records whether we are at
index 0 (no preceding token). -/
def emptyParametersFastGo : List Token → Bool → List Issue
  | [], _ => []
  | t :: rest, first =>
    (if t.type = TokenType.semicolon && headIs rest TokenType.semicolon then
      [Issue.emptyParameterDoubleSemicolon] else [])
    ++ (if t.type = TokenType.semicolon && first then
      [Issue.emptyParameterAtStart] else [])
    ++ emptyParametersFastGo rest false

/-- `MalformationChecker.checkEmptyParametersFast`. -/
def checkEmptyParametersFast (tokens : List Token) : List Issue :=
  emptyParametersFastGo tokens true

/-- Loop of `checkUnexpectedTokensFast`; carries the previous token kind. -/
def unexpectedTokensFastGo : List Token → Option TokenType → List Issue
  | [], _ => []
  | t :: rest, prev =>
    (if t.type = TokenType.colon &&
        !(prev = some TokenType.parameterName || prev = some TokenType.spread) then
      [Issue.unexpectedColonNoParam] else [])
    ++ (if t.type = TokenType.colon && headIs rest TokenType.colon then
      [Issue.doubleColon] else [])
    ++ unexpectedTokensFastGo rest (some t.type)

/-- `MalformationChecker.checkUnexpectedTokensFast`. -/
def checkUnexpectedTokensFast (tokens : List Token) : List Issue :=
  unexpectedTokensFastGo tokens none

/-- Does the character list contain the given character? -/
def hasChar (c : Char) (cs : List Char) : Bool :=
  cs.any (fun x => x = c)

/-- First loop of `checkStructuralIssuesFast`: parameter names containing
an asterisk, and type texts containing a forward slash. -/
def structuralScan : List Token → List Issue
  | [] => []
  | t :: rest =>
    (if t.type = TokenType.parameterName && hasChar '*' t.value then
      [Issue.malformedParameterName t.value] else [])
    ++ (if t.type = TokenType.type && hasChar '/' t.value then
      [Issue.invalidTypeForwardSlash t.value] else [])
    ++ structuralScan rest

/-- Loop of `checkEmptyParameters`, the second, non-Fast empty parameter
scan (reached through `checkStructuralIssuesFast`): per index, the
semicolon-at-start check (index 0 only) precedes the double-semicolon
check, mirroring the source order. -/
def emptyParametersGo : List Token → Bool → List Issue
  | [], _ => []
  | t :: rest, first =>
    (if first && t.type = TokenType.semicolon then
      [Issue.emptyParameterAtStart] else [])
    ++ (if t.type = TokenType.semicolon && headIs rest TokenType.semicolon then
      [Issue.emptyParameterDoubleSemicolon] else [])
    ++ emptyParametersGo rest false

/-- `MalformationChecker.checkEmptyParameters`. -/
def checkEmptyParameters (tokens : List Token) : List Issue :=
  emptyParametersGo tokens true

/-- `MalformationChecker.checkUnexpectedTokens` (the second colon scan,
reached through `checkStructuralIssuesFast`). -/
def checkUnexpectedTokens : List Token → List Issue
  | [] => []
  | t :: rest =>
    (if t.type = TokenType.colon && headIs rest TokenType.semicolon then
      [Issue.unexpectedSemicolonAfterColon] else [])
    ++ (if t.type = TokenType.colon && headIs rest TokenType.closeBrace then
      [Issue.unexpectedClosingBraceAfterColon] else [])
    ++ (if t.type = TokenType.colon && rest = [] then
      [Issue.parameterEmptyTypeAfterColon] else [])
    ++ checkUnexpectedTokens rest

/-- `MalformationChecker.checkStructuralIssuesFast`: the asterisk/slash
scan, then the duplicate empty-parameter scan, then the duplicate colon
scan. -/
def checkStructuralIssuesFast (tokens : List Token) : List Issue :=
  structuralScan tokens ++ checkEmptyParameters tokens ++ checkUnexpectedTokens tokens

/-- `MalformationChecker.checkMalformations`.  The source first filters out
`TokenType.WHITESPACE` tokens, but no such token kind exists (the tokenizer
never emits whitespace), so the filter keeps every token and is omitted
here. -/
def checkMalformations (tokens : List Token) : List Issue :=
  checkBraceBalanceFast tokens ++ checkEmptyParametersFast tokens ++
  checkUnexpectedTokensFast tokens ++ checkStructuralIssuesFast tokens

/-- `ParsedParameter` of `types.ts`: name, type (sentinel "unknown" when
absent), optional flag, spread flag. -/
structure ParsedParameter where
  name : List Char
  type : List Char
  optional : Bool
  spread : Bool
  deriving DecidableEq, Repr

/-- Strip the `...` prefix from a spread token's text, mirroring
`token.value.startsWith('...') ? token.value.slice(3) : token.value`. -/
def stripSpread (v : List Char) : List Char :=
  match v with
  | '.' :: '.' :: '.' :: rest => rest
  | _ => v

/-- `ParameterChecker.finishParameterFast`: finalize the parameter under
construction.  Nothing is produced when the name is empty; the finalized
parameter is discarded when its name is a lone brace or semicolon.  The
`optional` flag is the creation-time flag OR the positivity of the depth at
finalization time; an empty type falls back to the "unknown" sentinel. -/
def finishList (cur : Option ParsedParameter) (optionalDepth : Int) :
    List ParsedParameter :=
  match cur with
  | none => []
  | some p =>
    if p.name = [] then []
    else
      let finalParam : ParsedParameter :=
        ⟨p.name, (if p.type = [] then str "unknown" else p.type),
         (p.optional || decide (optionalDepth > 0)), p.spread⟩
      if finalParam.name ≠ [] && finalParam.name ≠ str "\x7d" &&
          finalParam.name ≠ str "\x7b" && finalParam.name ≠ str ";" then
        [finalParam]
      else []

/-- Loop of `ParameterChecker.buildParametersFast`.  Arguments: remaining
tokens, the kind of the token at the previous index (for the TYPE branch's
look-behind), the parameter under construction, and the brace depth.
Returns the emitted parameters and the PARAMETER_MISSING_TYPE issues in
stream order.  The `rest = []` disjunct in the missing-type conditions
mirrors the source's `i === nonWhitespaceTokens.length - 1` clause, which
sits inside the `nextToken && ...` guard and therefore can never fire. -/
def buildParametersGo : List Token → Option TokenType → Option ParsedParameter →
    Int → List ParsedParameter × List Issue
  | [], _, cur, depth =>
    (finishList cur depth, [])
  | t :: rest, prev, cur, depth =>
    match t.type with
    | TokenType.openBrace =>
      buildParametersGo rest (some t.type) cur (depth + 1)
    | TokenType.closeBrace =>
      buildParametersGo rest (some t.type) cur (depth - 1)
    | TokenType.parameterName =>
      let flushed :=
        match cur with
        | some p => if p.name ≠ [] then finishList (some p) depth else []
        | none => []
      let newCur : ParsedParameter :=
        ⟨t.value, str "unknown", decide (depth > 0), false⟩
      let issue :=
        if rest ≠ [] && !headIs rest TokenType.colon &&
            (headIs rest TokenType.semicolon || headIs rest TokenType.openBrace ||
             headIs rest TokenType.closeBrace || rest = []) then
          [Issue.parameterMissingType t.value]
        else []
      let r := buildParametersGo rest (some t.type) (some newCur) depth
      (flushed ++ r.1, issue ++ r.2)
    | TokenType.spread =>
      let paramName := stripSpread t.value
      let flushed :=
        match cur with
        | some p => if p.name ≠ [] then finishList (some p) depth else []
        | none => []
      let newCur : ParsedParameter :=
        ⟨paramName, str "unknown", decide (depth > 0), true⟩
      let issue :=
        if rest ≠ [] && !headIs rest TokenType.colon &&
            (headIs rest TokenType.semicolon || headIs rest TokenType.openBrace ||
             headIs rest TokenType.closeBrace || rest = []) then
          [Issue.parameterMissingType paramName]
        else []
      let r := buildParametersGo rest (some t.type) (some newCur) depth
      (flushed ++ r.1, issue ++ r.2)
    | TokenType.type =>
      let cur' :=
        match cur with
        | some p =>
          if prev = some TokenType.colon then some { p with type := t.value }
          else some p
        | none => none
      buildParametersGo rest (some t.type) cur' depth
    | TokenType.semicolon =>
      match cur with
      | some p =>
        if p.name ≠ [] then
          let r := buildParametersGo rest (some t.type) none depth
          (finishList (some p) depth ++ r.1, r.2)
        else buildParametersGo rest (some t.type) (some p) depth
      | none => buildParametersGo rest (some t.type) none depth
    | TokenType.operator =>
      let r := buildParametersGo rest (some t.type) cur depth
      (⟨t.value, str "operator", decide (depth > 0), false⟩ :: r.1, r.2)
    | TokenType.escapedAsterisk =>
      let r := buildParametersGo rest (some t.type) cur depth
      (⟨t.value, str "operator", decide (depth > 0), false⟩ :: r.1, r.2)
    | _ =>
      buildParametersGo rest (some t.type) cur depth

/-- `ParameterChecker.checkParameters`: build the parameter list and the
type issues from a token stream. -/
def checkParameters (tokens : List Token) : List ParsedParameter × List Issue :=
  buildParametersGo tokens none none 0

/-- Does `cs` start with the literal `pat`? -/
def startsWithLit : List Char → List Char → Bool
  | [], _ => true
  | _ :: _, [] => false
  | p :: ps, c :: rest => p = c && startsWithLit ps rest

/-- Global replacement of a literal pattern, modelling
`String.prototype.replace` with a global literal regex: leftmost,
non-overlapping, left to right.  Fuel starts at the input length; each
step consumes at least one character. -/
def replaceLitAux : Nat → List Char → List Char → List Char → List Char
  | 0, _, _, _ => []
  | _ + 1, _, _, [] => []
  | fuel + 1, pat, rep, c :: rest =>
    if pat ≠ [] && startsWithLit pat (c :: rest) then
      rep ++ replaceLitAux fuel pat rep ((c :: rest).drop pat.length)
    else
      c :: replaceLitAux fuel pat rep rest

/-- Global literal replacement, entry point. -/
def replaceLit (pat rep cs : List Char) : List Char :=
  replaceLitAux cs.length pat rep cs

/-- Characters admitted by the regex character class `[^*:;{}() ]` used by
the markdown-emphasis stripping patterns of
`Parser.preprocessParameterString`. -/
def isStarClass (c : Char) : Bool :=
  !(c = '*' || c = ':' || c = ';' || c = '\x7b' || c = '\x7d' ||
    c = '(' || c = ')' || c = ' ')

/-- Match, at the head of `cs`, the regex `\*(LIT[^*:;{}() ]+)\*` where
`LIT` is a literal prefix ("...", ";..." or empty).  Because the character
class excludes `*`, the greedy run admits no backtracking: the pattern
matches exactly when the maximal class run after the literal is non-empty
and is followed by `*`.  Returns the captured group (the text between the
asterisks) and the total match length. -/
def starPatMatch (lit : List Char) (cs : List Char) : Option (List Char × Nat) :=
  match cs with
  | [] => none
  | c :: t =>
    if c = '*' && startsWithLit lit t then
      let t2 := t.drop lit.length
      let run := t2.takeWhile isStarClass
      if run ≠ [] && headCharIs (t2.drop run.length) '*' then
        some (lit ++ run, 1 + lit.length + run.length + 1)
      else none
    else none

/-- Global replacement of `\*(LIT[^*:;{}() ]+)\*` by its captured group,
modelling the `/gu` regex replaces of `preprocessParameterString`. -/
def replaceStarPatAux : Nat → List Char → List Char → List Char
  | 0, _, _ => []
  | _ + 1, _, [] => []
  | fuel + 1, lit, c :: rest =>
    match starPatMatch lit (c :: rest) with
    | some (grp, n) => grp ++ replaceStarPatAux fuel lit ((c :: rest).drop n)
    | none => c :: replaceStarPatAux fuel lit rest

/-- Global star-pattern replacement, entry point. -/
def replaceStarPat (lit cs : List Char) : List Char :=
  replaceStarPatAux cs.length lit cs

/-- The placeholder protecting literal `\*` sequences during preprocessing. -/
def escMarker : List Char := str "___ESCAPED_ASTERISK___"

/-- `Parser.preprocessParameterString`: protect `\*`, strip the three
emphasis patterns, restore `\*`. -/
def preprocessParameterString (paramString : List Char) : List Char :=
  let s1 := replaceLit (str "\\*") escMarker paramString
  let s2 := replaceStarPat (str "...") s1
  let s3 := replaceStarPat (str ";...") s2
  let s4 := replaceStarPat [] s3
  replaceLit escMarker (str "\\*") s4

/-- ASCII lowercasing of a character, modelling `toLocaleLowerCase` on the
ASCII inputs the checker deals with. -/
def asciiLower (c : Char) : Char :=
  if 'A' ≤ c && c ≤ 'Z' then Char.ofNat (c.toNat + 32) else c

/-- Lowercase a whole string. -/
def lowerL (cs : List Char) : List Char := cs.map asciiLower

/-- Whitespace as JavaScript's `trim` and the regex class `\s` see it
(space, tab, LF, VT, FF, CR, NBSP). -/
def jsWsChar (c : Char) : Bool :=
  c.toNat = 32 || c.toNat = 9 || c.toNat = 10 || c.toNat = 11 ||
  c.toNat = 12 || c.toNat = 13 || c.toNat = 160

/-- `String.prototype.trim`. -/
def jsTrim (cs : List Char) : List Char :=
  ((cs.dropWhile jsWsChar).reverse.dropWhile jsWsChar).reverse

/-- `s.toLocaleLowerCase().trim()`, the cleanup applied to every declared
segment and actual entry by the set form of `isTypeValid`. -/
def cleanT (cs : List Char) : List Char := jsTrim (lowerL cs)

/-- `String.prototype.split(',')`: split on commas, keeping empty
segments. -/
def splitOnComma : List Char → List (List Char)
  | [] => [[]]
  | c :: rest =>
    if c = ',' then [] :: splitOnComma rest
    else
      match splitOnComma rest with
      | s :: ss => (c :: s) :: ss
      | [] => [[c]]

/-- The set form `SyntaxChecker.isTypeValid(parsedTypes, actualTypes)`
(checker.ts, second SyntaxChecker): clean both sides and test that every
declared comma segment occurs among the actual entries.  The JavaScript
`Set` only deduplicates, which a membership test does not observe. -/
def isTypeValid (parsedTypes : List Char) (actualTypes : List (List Char)) : Bool :=
  let set1 := (splitOnComma parsedTypes).map cleanT
  let set2 := actualTypes.map cleanT
  set1.all (fun item => set2.any (fun x => x = item))

namespace Checker1

/-- The `typeEquivalences` table of the single-type `isTypeValid`
(checker.ts, first SyntaxChecker): `typeEquivalences[p] === a` holds for
`real ↔ number`. -/
def typeEquiv (p a : List Char) : Bool :=
  (p = str "real" && a = str "number") || (p = str "number" && a = str "real")

/-- Match one separator of the regex `[,\/]|\s+or\s+` at the head of the
string, returning the match length.  The alternatives are disjoint at a
given start position; the greedy `\s+` runs admit no productive
backtracking because `\s` excludes `o`. -/
def sepMatchAt (cs : List Char) : Option Nat :=
  match cs with
  | ',' :: _ => some 1
  | '/' :: _ => some 1
  | _ =>
    let w := cs.takeWhile jsWsChar
    if w ≠ [] then
      match cs.drop w.length with
      | 'o' :: 'r' :: t2 =>
        let w2 := t2.takeWhile jsWsChar
        if w2 ≠ [] then some (w.length + 2 + w2.length) else none
      | _ => none
    else none

/-- Splitting loop for `actualType.split(/[,\/]|\s+or\s+/)`, with fuel. -/
def jsSplitAux : Nat → List Char → List Char → List (List Char)
  | 0, _, acc => [acc.reverse]
  | _ + 1, [], acc => [acc.reverse]
  | fuel + 1, c :: rest, acc =>
    match sepMatchAt (c :: rest) with
    | some n => acc.reverse :: jsSplitAux fuel ((c :: rest).drop n) []
    | none => jsSplitAux fuel rest (c :: acc)

/-- `actualType.split(/[,\/]|\s+or\s+/)`. -/
def jsSplit (cs : List Char) : List (List Char) :=
  jsSplitAux cs.length cs []

/-- The single-type (historical) form `SyntaxChecker.isTypeValid(parsedType,
actualType)` of checker.ts: unconditional acceptance of a declared "any",
exact equality, the real/number equivalence, then membership of the
declared type in the separator-split actual string (directly or through
the equivalence table). -/
def isTypeValid (parsedType actualType : List Char) : Bool :=
  let actualTypeLower := cleanT actualType
  let parsedTypeLower := cleanT parsedType
  if parsedTypeLower = str "any" then true
  else if actualTypeLower = parsedTypeLower then true
  else if typeEquiv parsedTypeLower actualTypeLower then true
  else
    let actualTypeList :=
      (((jsSplit actualTypeLower).map jsTrim).filter (fun t => t.length > 0))
    if actualTypeList.any (fun x => x = parsedTypeLower) then true
    else actualTypeList.any (fun a => typeEquiv parsedTypeLower a)

end Checker1

/-- `ParsedReturnType` of `types.ts`: optional return name (from
`-> name`) and optional return type (from `: Type`). -/
structure ParsedReturnType where
  name : Option (List Char)
  type : Option (List Char)
  deriving DecidableEq, Repr

/-- `MalformationInfo` of `types.ts`. -/
structure MalformationInfo where
  isMalformed : Bool
  issues : List Issue
  deriving DecidableEq, Repr

/-- `ParsedVariant` of `types.ts`: source text, parameters, and the
optional return-type and malformation fields. -/
structure ParsedVariant where
  variant : List Char
  parameters : List ParsedParameter
  returnType : Option ParsedReturnType
  malformation : Option MalformationInfo
  deriving DecidableEq, Repr

/-- Splitting loop for `String.prototype.split` with a literal separator,
with fuel. -/
def splitLitAux : Nat → List Char → List Char → List Char → List (List Char)
  | 0, _, _, acc => [acc.reverse]
  | _ + 1, _, [], acc => [acc.reverse]
  | fuel + 1, sep, c :: rest, acc =>
    if sep ≠ [] && startsWithLit sep (c :: rest) then
      acc.reverse :: splitLitAux fuel sep ((c :: rest).drop sep.length) []
    else
      splitLitAux fuel sep rest (c :: acc)

/-- `String.prototype.split` with a literal separator. -/
def splitOnLit (sep cs : List Char) : List (List Char) :=
  splitLitAux cs.length sep cs []

/-- The parenthesis scan of `parseSyntax`: walk the variant text tracking
parenthesis depth; the first `(` fixes the parameter start (one past it);
the `)` that brings the depth back to zero after a start was seen fixes the
end and stops the scan.  Returns (paramStart?, paramEnd?), `none` playing
the role of the sentinel `-1`. -/
def scanParensGo : List Char → Nat → Int → Option Nat → Option Nat × Option Nat
  | [], _, _, start => (start, none)
  | c :: rest, i, depth, start =>
    if c = '(' then
      scanParensGo rest (i + 1) (depth + 1)
        (if start = none then some (i + 1) else start)
    else if c = ')' then
      if depth - 1 = 0 && start ≠ none then (start, some i)
      else scanParensGo rest (i + 1) (depth - 1) start
    else scanParensGo rest (i + 1) depth start

/-- Index of the first occurrence of a character (`String.prototype.indexOf`). -/
def idxOfChar (c : Char) : List Char → Option Nat
  | [] => none
  | x :: rest => if x = c then some 0 else (idxOfChar c rest).map (· + 1)

/-- `Parser.parseReturnType` (the 4-step parser of parser.ts): inspect the
text after the matched closing parenthesis.  `-> name : Type` yields both
fields, `-> name` only the name, `: Type` only the type; a result whose
fields are both absent or empty is dropped. -/
def parseReturnType (syntaxString : List Char) (startIndex : Nat) :
    Option ParsedReturnType :=
  if startIndex ≥ syntaxString.length then none
  else
    let remainingString := jsTrim (syntaxString.drop startIndex)
    if remainingString = [] then none
    else
      let rt : ParsedReturnType :=
        if startsWithLit (str "->") remainingString then
          let afterArrow := jsTrim (remainingString.drop 2)
          match idxOfChar ':' afterArrow with
          | some colonIndex =>
            ⟨some (jsTrim (afterArrow.take colonIndex)),
             some (jsTrim (afterArrow.drop (colonIndex + 1)))⟩
          | none => ⟨some (jsTrim afterArrow), none⟩
        else if startsWithLit (str ":") remainingString then
          ⟨none, some (jsTrim (remainingString.drop 1))⟩
        else ⟨none, none⟩
      let nameTruthy := match rt.name with | some s => s ≠ [] | none => false
      let typeTruthy := match rt.type with | some s => s ≠ [] | none => false
      if !nameTruthy && !typeTruthy then none else some rt

/-- Per-variant body of the 4-step `Parser.parseSyntax` of parser.ts: find
the parenthesised parameter section (missing open or close parenthesis is a
malformation with empty parameters), preprocess, tokenize, run both
checkers, parse the return type, and attach malformation only when the
combined issue list is non-empty. -/
def processVariant (trimmedVariant : List Char) : ParsedVariant :=
  let pr := scanParensGo trimmedVariant 0 0 none
  match pr.1, pr.2 with
  | none, _ =>
    ⟨trimmedVariant, [], none, some ⟨true, [Issue.missingOpeningParenthesis]⟩⟩
  | some _, none =>
    ⟨trimmedVariant, [], none, some ⟨true, [Issue.missingClosingParenthesis]⟩⟩
  | some paramStart, some paramEnd =>
    let paramString := jsTrim ((trimmedVariant.drop paramStart).take (paramEnd - paramStart))
    if paramString = [] then ⟨trimmedVariant, [], none, none⟩
    else
      let preprocessedString := preprocessParameterString paramString
      let tokens := tokenize preprocessedString
      let malformationIssues := checkMalformations tokens
      let parameterResult := checkParameters tokens
      let allIssues := malformationIssues ++ parameterResult.2
      let returnType := parseReturnType trimmedVariant (paramEnd + 1)
      ⟨trimmedVariant, parameterResult.1, returnType,
       if allIssues ≠ [] then some ⟨true, allIssues⟩ else none⟩

/-- The 4-step `Parser.parseSyntax` of parser.ts: split on the literal
`<br/>` marker, trim and drop empty segments, process each surviving
segment independently. -/
def parseSyntax (s : List Char) : List ParsedVariant :=
  if s = [] then []
  else
    (splitOnLit (str "<br/>") s).foldr
      (fun seg acc =>
        let trimmedVariant := jsTrim seg
        if trimmedVariant = [] then acc else processVariant trimmedVariant :: acc)
      []


/-! Specification-side characterizations used by the claim theorems. -/

/-- Expected PARAMETER_MISSING_TYPE issues of a token stream: one issue per
PARAMETER_NAME or SPREAD token whose immediate successor is SEMICOLON,
OPEN_BRACE or CLOSE_BRACE, in stream order, carrying the (spread-stripped)
name. -/
def missingTypeSpec : List Token → List Issue
  | [] => []
  | t :: rest =>
    (if (t.type = TokenType.parameterName || t.type = TokenType.spread) &&
        (headIs rest TokenType.semicolon || headIs rest TokenType.openBrace ||
         headIs rest TokenType.closeBrace) then
      [Issue.parameterMissingType
        (if t.type = TokenType.spread then stripSpread t.value else t.value)]
    else []) ++ missingTypeSpec rest

/-- Unmatched-brace counting: returns (number of unmatched OPEN_BRACE
tokens, number of excess CLOSE_BRACE tokens), processing the stream with a
depth counter where a close at depth zero is an excess close. -/
def braceScanNat : List Token → Nat → Nat × Nat
  | [], depth => (depth, 0)
  | t :: rest, depth =>
    if t.type = TokenType.openBrace then braceScanNat rest (depth + 1)
    else if t.type = TokenType.closeBrace then
      match depth with
      | 0 => let r := braceScanNat rest 0; (r.1, r.2 + 1)
      | d + 1 => braceScanNat rest d
    else braceScanNat rest depth

/-- Number of OPEN_BRACE tokens in a stream. -/
def countOpens (ts : List Token) : Nat :=
  ts.countP (fun t => t.type = TokenType.openBrace)

/-- Number of CLOSE_BRACE tokens in a stream. -/
def countCloses (ts : List Token) : Nat :=
  ts.countP (fun t => t.type = TokenType.closeBrace)

/-- Number of adjacent SEMICOLON-SEMICOLON token pairs. -/
def adjSemiPairs : List Token → Nat
  | [] => 0
  | t :: rest =>
    (if t.type = TokenType.semicolon && headIs rest TokenType.semicolon then 1 else 0)
    + adjSemiPairs rest

/-- Number of EXTRA_CLOSING_BRACE issues in a list. -/
def countExtraClosing (issues : List Issue) : Nat :=
  (issues.filter (fun i => i = Issue.extraClosingBrace)).length

/-- Is the issue an UNCLOSED_OPTIONAL_BLOCK (with any count)? -/
def isUnclosedIssue (i : Issue) : Bool :=
  match i with
  | Issue.unclosedOptionalBlock _ => true
  | _ => false

/-- The UNCLOSED_OPTIONAL_BLOCK issues of a list. -/
def unclosedIssues (issues : List Issue) : List Issue :=
  issues.filter isUnclosedIssue

/-- Number of EMPTY_PARAMETER_DOUBLE_SEMICOLON issues in a list. -/
def countDoubleSemi (issues : List Issue) : Nat :=
  (issues.filter (fun i => i = Issue.emptyParameterDoubleSemicolon)).length

/-- Number of EMPTY_PARAMETER_AT_START issues in a list. -/
def countAtStart (issues : List Issue) : Nat :=
  (issues.filter (fun i => i = Issue.emptyParameterAtStart)).length

/-- C1.  Evaluation of the 4-step `parseSyntax` at the repository's own
property-syntax test input, a trimmed, non-empty variant segment with no
parenthesis characters.  The claim (with the specification and the
repository's parser test) expects `parameters = []` and no malformation
field; the code does produce empty parameters but attaches a
"Missing opening parenthesis" malformation, so the claim is right and the
code contradicts its own test. -/
theorem c1_property_variant_gets_malformation :
    parseSyntax (str "**.root** : 4D.ZipFolder") =
      [⟨str "**.root** : 4D.ZipFolder", [], none,
        some ⟨true, [Issue.missingOpeningParenthesis]⟩⟩] := by decide

/-- C3.  Evaluation of the set form `isTypeValid` at the claim's two
scenarios.  The first agrees with the claim; the second contradicts it:
the code checks that the declared set is a subset of the actual set, so a
single declared type present among three actual types yields `true`,
while the claim (and the repository's type-validation test) expects
`false`. -/
theorem c3_type_validation_evaluation :
    isTypeValid (str "Text,Blob,Object") [str "Text", str "Blob", str "Object"] = true ∧
    isTypeValid (str "Text") [str "Text", str "Blob", str "Object"] = true := by decide

/-- C5.  The single-type (historical) calling convention accepts any
declared type whose lowercased, trimmed form is "any" unconditionally; the
multi-type set comparison, contrary to the claim, has no "any"
short-circuit on either side, as the two evaluations show. -/
theorem c5_any_shortcircuit :
    (∀ parsedType actualType : List Char, cleanT parsedType = str "any" →
      Checker1.isTypeValid parsedType actualType = true) ∧
    isTypeValid (str "any") [str "Text"] = false ∧
    isTypeValid (str "Text") [str "any"] = false := by
  refine ⟨fun parsedType actualType h => ?_, by decide, by decide⟩
  simp only [Checker1.isTypeValid, h]
  simp

/-- Witness for C5: the general "any" short-circuit applied at a concrete
declared/actual pair. -/
theorem c5_any_shortcircuit_witness :
    Checker1.isTypeValid (str " ANY ") (str "Blob") = true :=
  c5_any_shortcircuit.1 (str " ANY ") (str "Blob") (by decide)

/-- C4.  The set form of `isTypeValid` returns true exactly when every
cleaned (lowercased, trimmed) comma segment of the declared string occurs
among the cleaned actual entries, and the verdict is invariant under
reordering of the actual entries and of the declared segments. -/
theorem c4_isTypeValid_subset_iff :
    ∀ (declared : List Char) (actual : List (List Char)),
      (isTypeValid declared actual = true ↔
        ∀ x ∈ (splitOnComma declared).map cleanT, x ∈ actual.map cleanT) ∧
      (∀ actual2, actual.Perm actual2 →
        isTypeValid declared actual2 = isTypeValid declared actual) ∧
      (∀ declared2,
        ((splitOnComma declared2).map cleanT).Perm
          ((splitOnComma declared).map cleanT) →
        isTypeValid declared2 actual = isTypeValid declared actual) := by
  have hmem : ∀ (d : List Char) (a : List (List Char)),
      isTypeValid d a = true ↔
        ∀ x ∈ (splitOnComma d).map cleanT, x ∈ a.map cleanT := by
    intro d a
    simp [isTypeValid, List.all_eq_true, List.any_eq_true]
  intro declared actual
  refine ⟨hmem _ _, fun actual2 hp => ?_, fun declared2 hp => ?_⟩
  · rw [Bool.eq_iff_iff, hmem, hmem]
    constructor <;> intro h x hx
    · exact ((hp.map cleanT).mem_iff).mpr (h x hx)
    · exact ((hp.map cleanT).mem_iff).mp (h x hx)
  · rw [Bool.eq_iff_iff, hmem, hmem]
    constructor <;> intro h x hx
    · exact h x (hp.mem_iff.mpr hx)
    · exact h x (hp.mem_iff.mp hx)

/-- Witness for C4: the characterization applied at concrete inputs, with
the permutation hypotheses discharged on a concrete reordering. -/
theorem c4_isTypeValid_subset_iff_witness :
    isTypeValid (str "Text") [str "Blob", str "Text"] =
      isTypeValid (str "Text") [str "Text", str "Blob"] :=
  (c4_isTypeValid_subset_iff (str "Text") [str "Text", str "Blob"]).2.1
    [str "Blob", str "Text"] (by decide)

/-- An element of a conditional singleton is that singleton's element. -/
theorem mem_ite_singleton {c : Prop} [Decidable c] {x i : Issue}
    (h : i ∈ (if c then [x] else [])) : i = x := by
  split at h <;> simp_all

/-- The issues of the brace-balance loop are all EXTRA_CLOSING_BRACE. -/
theorem mem_braceBalanceGo : ∀ (ts : List Token) (d : Int) (i : Issue),
    i ∈ (braceBalanceGo ts d).1 → i = Issue.extraClosingBrace := by
  intro ts
  induction ts with
  | nil => intro d i hi; simp [braceBalanceGo] at hi
  | cons t rest ih =>
    intro d i hi
    by_cases ho : t.type = TokenType.openBrace
    · exact ih _ i (by simpa [braceBalanceGo, ho] using hi)
    · by_cases hc : t.type = TokenType.closeBrace
      · by_cases hlt : d - 1 < 0
        · simp [braceBalanceGo, ho, hc, hlt] at hi
          rcases hi with h | h
          · exact h
          · exact ih _ i h
        · exact ih _ i (by simpa [braceBalanceGo, ho, hc, hlt] using hi)
      · exact ih _ i (by simpa [braceBalanceGo, ho, hc] using hi)

/-- The issues of `checkBraceBalanceFast` are extra-closing-brace or
unclosed-block issues. -/
theorem mem_checkBraceBalanceFast {ts : List Token} {i : Issue}
    (h : i ∈ checkBraceBalanceFast ts) :
    i = Issue.extraClosingBrace ∨ isUnclosedIssue i = true := by
  unfold checkBraceBalanceFast at h
  rcases List.mem_append.mp h with h1 | h2
  · exact Or.inl (mem_braceBalanceGo ts 0 i h1)
  · right
    split at h2 <;> simp_all [isUnclosedIssue]

/-- The issues of the fast empty-parameter scan are double-semicolon or
at-start issues. -/
theorem mem_emptyParametersFastGo : ∀ (ts : List Token) (b : Bool) (i : Issue),
    i ∈ emptyParametersFastGo ts b →
    i = Issue.emptyParameterDoubleSemicolon ∨ i = Issue.emptyParameterAtStart := by
  intro ts
  induction ts with
  | nil => intro b i hi; simp [emptyParametersFastGo] at hi
  | cons t rest ih =>
    intro b i hi
    unfold emptyParametersFastGo at hi
    rcases List.mem_append.mp hi with h12 | h3
    · rcases List.mem_append.mp h12 with h1 | h2
      · exact Or.inl (mem_ite_singleton h1)
      · exact Or.inr (mem_ite_singleton h2)
    · exact ih false i h3

/-- The issues of the second empty-parameter scan are double-semicolon or
at-start issues. -/
theorem mem_emptyParametersGo : ∀ (ts : List Token) (b : Bool) (i : Issue),
    i ∈ emptyParametersGo ts b →
    i = Issue.emptyParameterDoubleSemicolon ∨ i = Issue.emptyParameterAtStart := by
  intro ts
  induction ts with
  | nil => intro b i hi; simp [emptyParametersGo] at hi
  | cons t rest ih =>
    intro b i hi
    unfold emptyParametersGo at hi
    rcases List.mem_append.mp hi with h12 | h3
    · rcases List.mem_append.mp h12 with h1 | h2
      · exact Or.inr (mem_ite_singleton h1)
      · exact Or.inl (mem_ite_singleton h2)
    · exact ih false i h3

/-- The issues of the fast colon scan are colon-placement issues. -/
theorem mem_unexpectedTokensFastGo : ∀ (ts : List Token) (p : Option TokenType) (i : Issue),
    i ∈ unexpectedTokensFastGo ts p →
    i = Issue.unexpectedColonNoParam ∨ i = Issue.doubleColon := by
  intro ts
  induction ts with
  | nil => intro p i hi; simp [unexpectedTokensFastGo] at hi
  | cons t rest ih =>
    intro p i hi
    unfold unexpectedTokensFastGo at hi
    rcases List.mem_append.mp hi with h12 | h3
    · rcases List.mem_append.mp h12 with h1 | h2
      · exact Or.inl (mem_ite_singleton h1)
      · exact Or.inr (mem_ite_singleton h2)
    · exact ih _ i h3

/-- The issues of the asterisk/slash scan are malformed-name or
forward-slash issues. -/
theorem mem_structuralScan : ∀ (ts : List Token) (i : Issue),
    i ∈ structuralScan ts →
    (∃ s, i = Issue.malformedParameterName s) ∨
    (∃ s, i = Issue.invalidTypeForwardSlash s) := by
  intro ts
  induction ts with
  | nil => intro i hi; simp [structuralScan] at hi
  | cons t rest ih =>
    intro i hi
    unfold structuralScan at hi
    rcases List.mem_append.mp hi with h12 | h3
    · rcases List.mem_append.mp h12 with h1 | h2
      · exact Or.inl ⟨t.value, mem_ite_singleton h1⟩
      · exact Or.inr ⟨t.value, mem_ite_singleton h2⟩
    · exact ih i h3

/-- The issues of the second colon scan are colon-type issues. -/
theorem mem_checkUnexpectedTokens : ∀ (ts : List Token) (i : Issue),
    i ∈ checkUnexpectedTokens ts →
    i = Issue.unexpectedSemicolonAfterColon ∨
    i = Issue.unexpectedClosingBraceAfterColon ∨
    i = Issue.parameterEmptyTypeAfterColon := by
  intro ts
  induction ts with
  | nil => intro i hi; simp [checkUnexpectedTokens] at hi
  | cons t rest ih =>
    intro i hi
    unfold checkUnexpectedTokens at hi
    rcases List.mem_append.mp hi with h123 | h4
    · rcases List.mem_append.mp h123 with h12 | h3
      · rcases List.mem_append.mp h12 with h1 | h2
        · exact Or.inl (mem_ite_singleton h1)
        · exact Or.inr (Or.inl (mem_ite_singleton h2))
      · exact Or.inr (Or.inr (mem_ite_singleton h3))
    · exact ih i h4

/-- Counting filters distribute over issue-list concatenation. -/
theorem countExtra_append (a b : List Issue) :
    countExtraClosing (a ++ b) = countExtraClosing a + countExtraClosing b := by
  simp [countExtraClosing, List.filter_append]

/-- Unclosed-issue filters distribute over issue-list concatenation. -/
theorem unclosedIssues_append (a b : List Issue) :
    unclosedIssues (a ++ b) = unclosedIssues a ++ unclosedIssues b := by
  simp [unclosedIssues, List.filter_append]

/-- Double-semicolon counts distribute over issue-list concatenation. -/
theorem countDouble_append (a b : List Issue) :
    countDoubleSemi (a ++ b) = countDoubleSemi a + countDoubleSemi b := by
  simp [countDoubleSemi, List.filter_append]

/-- At-start counts distribute over issue-list concatenation. -/
theorem countAtStart_append (a b : List Issue) :
    countAtStart (a ++ b) = countAtStart a + countAtStart b := by
  simp [countAtStart, List.filter_append]

/-- A list with no extra-closing-brace member has extra count zero. -/
theorem countExtra_eq_zero {l : List Issue}
    (h : ∀ i ∈ l, i ≠ Issue.extraClosingBrace) : countExtraClosing l = 0 := by
  simp only [countExtraClosing, List.length_eq_zero]
  exact List.filter_eq_nil.mpr (by intro a ha; simpa using h a ha)

/-- A list with no unclosed-block member has no unclosed issues. -/
theorem unclosedIssues_eq_nil {l : List Issue}
    (h : ∀ i ∈ l, isUnclosedIssue i = false) : unclosedIssues l = [] :=
  List.filter_eq_nil.mpr (by intro a ha; simp [h a ha])

/-- A list with no double-semicolon member has double-semicolon count zero. -/
theorem countDouble_eq_zero {l : List Issue}
    (h : ∀ i ∈ l, i ≠ Issue.emptyParameterDoubleSemicolon) : countDoubleSemi l = 0 := by
  simp only [countDoubleSemi, List.length_eq_zero]
  exact List.filter_eq_nil.mpr (by intro a ha; simpa using h a ha)

/-- A list with no at-start member has at-start count zero. -/
theorem countAtStart_eq_zero {l : List Issue}
    (h : ∀ i ∈ l, i ≠ Issue.emptyParameterAtStart) : countAtStart l = 0 := by
  simp only [countAtStart, List.length_eq_zero]
  exact List.filter_eq_nil.mpr (by intro a ha; simpa using h a ha)

/-- The brace-balance loop emits exactly one EXTRA_CLOSING_BRACE per excess
close and ends at the unmatched-open count: the Int-typed clamped loop of
the source agrees with the Nat-typed unmatched-brace count. -/
theorem braceBalanceGo_eq : ∀ (ts : List Token) (d : Nat),
    braceBalanceGo ts (d : Int) =
      (List.replicate (braceScanNat ts d).2 Issue.extraClosingBrace,
       ((braceScanNat ts d).1 : Int)) := by
  intro ts
  induction ts with
  | nil => intro d; simp [braceBalanceGo, braceScanNat]
  | cons t rest ih =>
    intro d
    by_cases ho : t.type = TokenType.openBrace
    · have h1 := ih (d + 1)
      push_cast at h1
      simp [braceBalanceGo, braceScanNat, ho, h1]
    · by_cases hc : t.type = TokenType.closeBrace
      · cases d with
        | zero =>
          have h0 := ih 0
          push_cast at h0
          simp [braceBalanceGo, braceScanNat, ho, hc, h0, List.replicate_succ]
        | succ n =>
          have hn := ih n
          have hlt : ¬ ((((n : Nat) + 1 : Nat) : Int) - 1 < 0) := by push_cast; omega
          have hd : ((((n : Nat) + 1 : Nat) : Int) - 1) = (n : Int) := by push_cast; ring
          simp [braceBalanceGo, braceScanNat, ho, hc, hlt, hd, hn]
      · simp [braceBalanceGo, braceScanNat, ho, hc, ih d]

/-- `checkBraceBalanceFast` in closed form: one EXTRA_CLOSING_BRACE per
excess close, then a single UNCLOSED_OPTIONAL_BLOCK carrying the
unmatched-open count when it is positive. -/
theorem checkBraceBalanceFast_eq (ts : List Token) :
    checkBraceBalanceFast ts =
      List.replicate (braceScanNat ts 0).2 Issue.extraClosingBrace ++
      (if (braceScanNat ts 0).1 = 0 then []
       else [Issue.unclosedOptionalBlock ((braceScanNat ts 0).1 : Int)]) := by
  have h := braceBalanceGo_eq ts 0
  push_cast at h
  unfold checkBraceBalanceFast
  rw [h]
  rcases Nat.eq_zero_or_pos (braceScanNat ts 0).1 with hb | hb
  · simp [hb]
  · have h1 : ((braceScanNat ts 0).1 : Int) > 0 := by exact_mod_cast hb
    have h2 : (braceScanNat ts 0).1 ≠ 0 := Nat.pos_iff_ne_zero.mp hb
    simp [h1, h2]

/-- Replicated extra-closing-brace issues count to their length. -/
theorem countExtra_replicate (n : Nat) :
    countExtraClosing (List.replicate n Issue.extraClosingBrace) = n := by
  induction n with
  | zero => simp [countExtraClosing]
  | succ k ih => simp [countExtraClosing, List.replicate_succ, List.filter_cons] at *

/-- Replicated extra-closing-brace issues contain no unclosed-block issue. -/
theorem unclosed_replicate (n : Nat) :
    unclosedIssues (List.replicate n Issue.extraClosingBrace) = [] :=
  unclosedIssues_eq_nil (fun i hi => by
    have := List.eq_of_mem_replicate hi
    simp [this, isUnclosedIssue])

/-- C8.  Brace counting: over any token stream, `checkMalformations` emits
exactly as many EXTRA_CLOSING_BRACE issues as there are excess CLOSE_BRACE
tokens, and exactly one UNCLOSED_OPTIONAL_BLOCK issue carrying the exact
unmatched-open count when that count is positive (none when it is zero).
The unmatched counts are those of `braceScanNat`, the standard
depth-counter characterization of unmatched braces. -/
theorem c8_brace_counting : ∀ ts : List Token,
    countExtraClosing (checkMalformations ts) = (braceScanNat ts 0).2 ∧
    unclosedIssues (checkMalformations ts) =
      (if (braceScanNat ts 0).1 = 0 then []
       else [Issue.unclosedOptionalBlock ((braceScanNat ts 0).1 : Int)]) := by
  intro ts
  have hcepf1 : countExtraClosing (checkEmptyParametersFast ts) = 0 :=
    countExtra_eq_zero (fun i hi => by
      rcases mem_emptyParametersFastGo ts true i hi with h | h <;> simp [h])
  have hcepf2 : unclosedIssues (checkEmptyParametersFast ts) = [] :=
    unclosedIssues_eq_nil (fun i hi => by
      rcases mem_emptyParametersFastGo ts true i hi with h | h <;>
        simp [h, isUnclosedIssue])
  have hcutf1 : countExtraClosing (checkUnexpectedTokensFast ts) = 0 :=
    countExtra_eq_zero (fun i hi => by
      rcases mem_unexpectedTokensFastGo ts none i hi with h | h <;> simp [h])
  have hcutf2 : unclosedIssues (checkUnexpectedTokensFast ts) = [] :=
    unclosedIssues_eq_nil (fun i hi => by
      rcases mem_unexpectedTokensFastGo ts none i hi with h | h <;>
        simp [h, isUnclosedIssue])
  have hss1 : countExtraClosing (structuralScan ts) = 0 :=
    countExtra_eq_zero (fun i hi => by
      rcases mem_structuralScan ts i hi with ⟨s, h⟩ | ⟨s, h⟩ <;> simp [h])
  have hss2 : unclosedIssues (structuralScan ts) = [] :=
    unclosedIssues_eq_nil (fun i hi => by
      rcases mem_structuralScan ts i hi with ⟨s, h⟩ | ⟨s, h⟩ <;>
        simp [h, isUnclosedIssue])
  have hcep1 : countExtraClosing (checkEmptyParameters ts) = 0 :=
    countExtra_eq_zero (fun i hi => by
      rcases mem_emptyParametersGo ts true i hi with h | h <;> simp [h])
  have hcep2 : unclosedIssues (checkEmptyParameters ts) = [] :=
    unclosedIssues_eq_nil (fun i hi => by
      rcases mem_emptyParametersGo ts true i hi with h | h <;>
        simp [h, isUnclosedIssue])
  have hcut1 : countExtraClosing (checkUnexpectedTokens ts) = 0 :=
    countExtra_eq_zero (fun i hi => by
      rcases mem_checkUnexpectedTokens ts i hi with h | h | h <;> simp [h])
  have hcut2 : unclosedIssues (checkUnexpectedTokens ts) = [] :=
    unclosedIssues_eq_nil (fun i hi => by
      rcases mem_checkUnexpectedTokens ts i hi with h | h | h <;>
        simp [h, isUnclosedIssue])
  constructor
  · simp only [checkMalformations, checkStructuralIssuesFast, countExtra_append,
      checkBraceBalanceFast_eq, hcepf1, hcutf1, hss1, hcep1, hcut1,
      countExtra_replicate]
    split <;> simp [countExtraClosing]
  · simp only [checkMalformations, checkStructuralIssuesFast, unclosedIssues_append,
      checkBraceBalanceFast_eq, hcepf2, hcutf2, hss2, hcep2, hcut2,
      unclosed_replicate]
    split <;> simp [unclosedIssues, isUnclosedIssue]

/-- Double-semicolon count of a conditional double-semicolon singleton. -/
theorem countDouble_ite (c : Prop) [Decidable c] :
    countDoubleSemi (if c then [Issue.emptyParameterDoubleSemicolon] else []) =
      if c then 1 else 0 := by
  split <;> simp [countDoubleSemi]

/-- Double-semicolon count of a conditional at-start singleton is zero. -/
theorem countDouble_ite_atStart (c : Prop) [Decidable c] :
    countDoubleSemi (if c then [Issue.emptyParameterAtStart] else []) = 0 := by
  split <;> simp [countDoubleSemi]

/-- At-start count of a conditional at-start singleton. -/
theorem countAtStart_ite (c : Prop) [Decidable c] :
    countAtStart (if c then [Issue.emptyParameterAtStart] else []) =
      if c then 1 else 0 := by
  split <;> simp [countAtStart]

/-- At-start count of a conditional double-semicolon singleton is zero. -/
theorem countAtStart_ite_double (c : Prop) [Decidable c] :
    countAtStart (if c then [Issue.emptyParameterDoubleSemicolon] else []) = 0 := by
  split <;> simp [countAtStart]

/-- The fast empty-parameter scan emits one double-semicolon issue per
adjacent semicolon pair. -/
theorem countDouble_fastGo : ∀ (ts : List Token) (b : Bool),
    countDoubleSemi (emptyParametersFastGo ts b) = adjSemiPairs ts := by
  intro ts
  induction ts with
  | nil => intro b; simp [emptyParametersFastGo, adjSemiPairs, countDoubleSemi]
  | cons t rest ih =>
    intro b
    simp only [emptyParametersFastGo, adjSemiPairs, countDouble_append,
      countDouble_ite, countDouble_ite_atStart, ih]
    simp

/-- The second empty-parameter scan emits one double-semicolon issue per
adjacent semicolon pair. -/
theorem countDouble_go : ∀ (ts : List Token) (b : Bool),
    countDoubleSemi (emptyParametersGo ts b) = adjSemiPairs ts := by
  intro ts
  induction ts with
  | nil => intro b; simp [emptyParametersGo, adjSemiPairs, countDoubleSemi]
  | cons t rest ih =>
    intro b
    simp only [emptyParametersGo, adjSemiPairs, countDouble_append,
      countDouble_ite, countDouble_ite_atStart, ih]
    simp

/-- The fast empty-parameter scan emits one at-start issue exactly when it
runs in first position on a stream starting with a semicolon. -/
theorem countAtStart_fastGo : ∀ (ts : List Token) (b : Bool),
    countAtStart (emptyParametersFastGo ts b) =
      if b && headIs ts TokenType.semicolon then 1 else 0 := by
  intro ts
  induction ts with
  | nil => intro b; simp [emptyParametersFastGo, headIs, countAtStart]
  | cons t rest ih =>
    intro b
    simp only [emptyParametersFastGo, countAtStart_append, countAtStart_ite,
      countAtStart_ite_double, ih]
    simp [headIs, Bool.and_comm]

/-- The second empty-parameter scan emits one at-start issue exactly when
it runs in first position on a stream starting with a semicolon. -/
theorem countAtStart_go : ∀ (ts : List Token) (b : Bool),
    countAtStart (emptyParametersGo ts b) =
      if b && headIs ts TokenType.semicolon then 1 else 0 := by
  intro ts
  induction ts with
  | nil => intro b; simp [emptyParametersGo, headIs, countAtStart]
  | cons t rest ih =>
    intro b
    simp only [emptyParametersGo, countAtStart_append, countAtStart_ite,
      countAtStart_ite_double, ih]
    simp [headIs, Bool.and_comm]

/-- C10.  `checkMalformations` runs the empty-parameter scan twice (once
directly through `checkEmptyParametersFast` and once again inside
`checkStructuralIssuesFast` through `checkEmptyParameters`), so every
adjacent SEMICOLON-SEMICOLON pair yields exactly two
EMPTY_PARAMETER_DOUBLE_SEMICOLON issues and a leading SEMICOLON yields
exactly two EMPTY_PARAMETER_AT_START issues. -/
theorem c10_duplicate_empty_parameter_issues : ∀ ts : List Token,
    countDoubleSemi (checkMalformations ts) = 2 * adjSemiPairs ts ∧
    countAtStart (checkMalformations ts) =
      (if headIs ts TokenType.semicolon then 2 else 0) := by
  intro ts
  have hbb : ∀ i ∈ checkBraceBalanceFast ts,
      i ≠ Issue.emptyParameterDoubleSemicolon ∧ i ≠ Issue.emptyParameterAtStart := by
    intro i hi
    rcases mem_checkBraceBalanceFast hi with h | h
    · simp [h]
    · cases i <;> simp_all [isUnclosedIssue]
  have hcutf : ∀ i ∈ checkUnexpectedTokensFast ts,
      i ≠ Issue.emptyParameterDoubleSemicolon ∧ i ≠ Issue.emptyParameterAtStart := by
    intro i hi
    rcases mem_unexpectedTokensFastGo ts none i hi with h | h <;> simp [h]
  have hss : ∀ i ∈ structuralScan ts,
      i ≠ Issue.emptyParameterDoubleSemicolon ∧ i ≠ Issue.emptyParameterAtStart := by
    intro i hi
    rcases mem_structuralScan ts i hi with ⟨s, h⟩ | ⟨s, h⟩ <;> simp [h]
  have hcut : ∀ i ∈ checkUnexpectedTokens ts,
      i ≠ Issue.emptyParameterDoubleSemicolon ∧ i ≠ Issue.emptyParameterAtStart := by
    intro i hi
    rcases mem_checkUnexpectedTokens ts i hi with h | h | h <;> simp [h]
  constructor
  · simp only [checkMalformations, checkStructuralIssuesFast, countDouble_append]
    rw [countDouble_eq_zero (fun i hi => (hbb i hi).1),
      countDouble_eq_zero (fun i hi => (hcutf i hi).1),
      countDouble_eq_zero (fun i hi => (hss i hi).1),
      countDouble_eq_zero (fun i hi => (hcut i hi).1)]
    have h1 := countDouble_fastGo ts true
    have h2 := countDouble_go ts true
    simp only [checkEmptyParametersFast, checkEmptyParameters] at *
    omega
  · simp only [checkMalformations, checkStructuralIssuesFast, countAtStart_append]
    rw [countAtStart_eq_zero (fun i hi => (hbb i hi).2),
      countAtStart_eq_zero (fun i hi => (hcutf i hi).2),
      countAtStart_eq_zero (fun i hi => (hss i hi).2),
      countAtStart_eq_zero (fun i hi => (hcut i hi).2)]
    have h1 := countAtStart_fastGo ts true
    have h2 := countAtStart_go ts true
    simp only [checkEmptyParametersFast, checkEmptyParameters, Bool.true_and] at *
    by_cases hh : headIs ts TokenType.semicolon <;> simp [hh] at * <;> omega

/-- The missing-type condition of `buildParametersFast` simplifies to
"the next token exists and is SEMICOLON, OPEN_BRACE or CLOSE_BRACE": such
a token is never COLON, and the end-of-stream disjunct (the source's
`i === length - 1`) is unreachable under the `nextToken` guard. -/
theorem missingCond_eq (rest : List Token) :
    (rest ≠ [] && !headIs rest TokenType.colon &&
     (headIs rest TokenType.semicolon || headIs rest TokenType.openBrace ||
      headIs rest TokenType.closeBrace || rest = [])) =
    (headIs rest TokenType.semicolon || headIs rest TokenType.openBrace ||
     headIs rest TokenType.closeBrace) := by
  cases rest with
  | nil => simp [headIs]
  | cons nt r => cases h : nt.type <;> simp [headIs, h]

/-- The issue stream of the parameter-building loop does not depend on the
loop state: it is exactly `missingTypeSpec`. -/
theorem buildParametersGo_issues : ∀ (ts : List Token) (prev : Option TokenType)
    (cur : Option ParsedParameter) (depth : Int),
    (buildParametersGo ts prev cur depth).2 = missingTypeSpec ts := by
  intro ts
  induction ts with
  | nil => intro prev cur depth; simp [buildParametersGo, missingTypeSpec]
  | cons t rest ih =>
    intro prev cur depth
    rcases cur with _ | p <;> cases ht : t.type <;>
      simp only [buildParametersGo, missingTypeSpec, ht, ih, missingCond_eq] <;>
      (try split) <;>
      simp_all [missingTypeSpec, missingCond_eq]

/-- C2 counterexample.  A PARAMETER_NAME token as the last token of the
stream: the claim says the end-of-stream position (which is not COLON)
triggers a PARAMETER_MISSING_TYPE issue, but the code's `nextToken` guard
makes the end-of-stream disjunct unreachable, so no issue is emitted; a
following OPEN_BRACE, which the claim excludes, does emit one. -/
theorem c2_missing_type_counterexample :
    (checkParameters [⟨TokenType.parameterName, str "p", 0⟩]).2 = [] ∧
    (checkParameters [⟨TokenType.parameterName, str "p", 0⟩,
      ⟨TokenType.openBrace, str "\x7b", 2⟩]).2 =
      [Issue.parameterMissingType (str "p")] := by decide

/-- C2 (amended).  `checkParameters` emits a PARAMETER_MISSING_TYPE issue
for a PARAMETER_NAME or SPREAD token exactly when a token immediately
follows it and that token is SEMICOLON, OPEN_BRACE or CLOSE_BRACE (such a
token is never COLON); a name or spread ending the stream emits nothing. -/
theorem c2_missing_type_characterization : ∀ ts : List Token,
    (checkParameters ts).2 = missingTypeSpec ts := by
  intro ts
  exact buildParametersGo_issues ts none none 0

/-- C6 counterexample.  The claim says an ESCAPED_ASTERISK token appends a
synthetic parameter with name "*"; the code stores the token's literal
text, which for ESCAPED_ASTERISK is the two characters backslash and
asterisk. -/
theorem c6_escaped_asterisk_counterexample :
    (checkParameters [⟨TokenType.escapedAsterisk, str "\\*", 0⟩]).1 ≠
      [⟨str "*", str "operator", false, false⟩] := by decide

/-- C6 (amended).  An OPERATOR or ESCAPED_ASTERISK token makes the
parameter-building loop immediately append a synthetic parameter carrying
the token's literal text as its name ("*" for OPERATOR, backslash-asterisk
for ESCAPED_ASTERISK), type "operator", the optional flag from the current
brace depth and spread false, while the parameter under construction and
the depth are passed on untouched. -/
theorem c6_operator_token_step :
    ∀ (t : Token) (rest : List Token) (prev : Option TokenType)
      (cur : Option ParsedParameter) (depth : Int),
      t.type = TokenType.operator ∨ t.type = TokenType.escapedAsterisk →
      buildParametersGo (t :: rest) prev cur depth =
        (⟨t.value, str "operator", decide (depth > 0), false⟩ ::
          (buildParametersGo rest (some t.type) cur depth).1,
         (buildParametersGo rest (some t.type) cur depth).2) := by
  intro t rest prev cur depth h
  rcases h with h | h <;> simp [buildParametersGo, h]

/-- Witness for C6: the step theorem applied to a concrete OPERATOR token
in an empty context. -/
theorem c6_operator_token_step_witness :
    buildParametersGo [⟨TokenType.operator, str "*", 0⟩] none none 0 =
      (⟨str "*", str "operator", decide ((0 : Int) > 0), false⟩ ::
        (buildParametersGo [] (some TokenType.operator) none 0).1,
       (buildParametersGo [] (some TokenType.operator) none 0).2) :=
  c6_operator_token_step ⟨TokenType.operator, str "*", 0⟩ [] none none 0
    (Or.inl rfl)

/-- A star-free string does not start with the escaped-asterisk pattern. -/
theorem startsWith_bs_false {c : Char} {rest : List Char} (h : '*' ∉ c :: rest) :
    startsWithLit (str "\\*") (c :: rest) = false := by
  rw [show str "\\*" = '\\' :: '*' :: [] from rfl]
  cases rest with
  | nil => simp [startsWithLit]
  | cons x r =>
    have hx : ¬ ('*' = x) := fun he => h (by simp [← he])
    simp [startsWithLit, hx]

/-- Replacing the escaped-asterisk pattern in a star-free string is the
identity. -/
theorem replaceLitAux_bs_id : ∀ (fuel : Nat) (rep cs : List Char),
    cs.length ≤ fuel → '*' ∉ cs →
    replaceLitAux fuel (str "\\*") rep cs = cs := by
  intro fuel
  induction fuel with
  | zero =>
    intro rep cs hlen hstar
    cases cs with
    | nil => rfl
    | cons c r => simp at hlen
  | succ k ih =>
    intro rep cs hlen hstar
    cases cs with
    | nil => rfl
    | cons c rest =>
      have hm := startsWith_bs_false hstar
      have hrest : '*' ∉ rest := fun hr => hstar (List.mem_cons_of_mem c hr)
      simp only [List.length_cons, Nat.succ_le_succ_iff] at hlen
      simp [replaceLitAux, hm, ih rep rest hlen hrest]

/-- A string without underscores does not start with the escape marker. -/
theorem startsWith_marker_false {c : Char} {rest : List Char} (h : '_' ∉ c :: rest) :
    startsWithLit escMarker (c :: rest) = false := by
  have hc : ¬ ('_' = c) := fun he => h (by simp [← he])
  rw [show escMarker = '_' :: str "__ESCAPED_ASTERISK___" from rfl]
  simp [startsWithLit, hc]

/-- Restoring the escape marker in a string without underscores is the
identity. -/
theorem replaceLitAux_marker_id : ∀ (fuel : Nat) (rep cs : List Char),
    cs.length ≤ fuel → '_' ∉ cs →
    replaceLitAux fuel escMarker rep cs = cs := by
  intro fuel
  induction fuel with
  | zero =>
    intro rep cs hlen hund
    cases cs with
    | nil => rfl
    | cons c r => simp at hlen
  | succ k ih =>
    intro rep cs hlen hund
    cases cs with
    | nil => rfl
    | cons c rest =>
      have hm := startsWith_marker_false hund
      have hrest : '_' ∉ rest := fun hr => hund (List.mem_cons_of_mem c hr)
      simp only [List.length_cons, Nat.succ_le_succ_iff] at hlen
      simp [replaceLitAux, hm, ih rep rest hlen hrest]

/-- Emphasis-pattern replacement in a star-free string is the identity:
the pattern must start with an asterisk. -/
theorem replaceStarPatAux_id : ∀ (fuel : Nat) (lit cs : List Char),
    cs.length ≤ fuel → '*' ∉ cs →
    replaceStarPatAux fuel lit cs = cs := by
  intro fuel
  induction fuel with
  | zero =>
    intro lit cs hlen hstar
    cases cs with
    | nil => rfl
    | cons c r => simp at hlen
  | succ k ih =>
    intro lit cs hlen hstar
    cases cs with
    | nil => rfl
    | cons c rest =>
      have hc : ¬ (c = '*') := fun he => hstar (by simp [he])
      have hm : starPatMatch lit (c :: rest) = none := by
        simp [starPatMatch, hc]
      have hrest : '*' ∉ rest := fun hr => hstar (List.mem_cons_of_mem c hr)
      simp only [List.length_cons, Nat.succ_le_succ_iff] at hlen
      simp only [replaceStarPatAux, hm]
      rw [ih lit rest hlen hrest]

/-- Preprocessing is the identity on strings containing neither an asterisk
nor an underscore. -/
theorem preprocess_id {cs : List Char} (h1 : '*' ∉ cs) (h2 : '_' ∉ cs) :
    preprocessParameterString cs = cs := by
  show replaceLit escMarker (str "\\*")
      (replaceStarPat []
        (replaceStarPat (str ";...")
          (replaceStarPat (str "...")
            (replaceLit (str "\\*") escMarker cs)))) = cs
  rw [show replaceLit (str "\\*") escMarker cs = cs from
      replaceLitAux_bs_id cs.length escMarker cs le_rfl h1,
    show replaceStarPat (str "...") cs = cs from
      replaceStarPatAux_id cs.length (str "...") cs le_rfl h1,
    show replaceStarPat (str ";...") cs = cs from
      replaceStarPatAux_id cs.length (str ";...") cs le_rfl h1,
    show replaceStarPat [] cs = cs from
      replaceStarPatAux_id cs.length [] cs le_rfl h1,
    show replaceLit escMarker (str "\\*") cs = cs from
      replaceLitAux_marker_id cs.length (str "\\*") cs le_rfl h2]

/-- C7 counterexample.  Preprocessing is not idempotent: on the doubled
emphasis marker the first pass strips the inner pair, leaving a pair the
second pass strips again, so the two token sequences differ. -/
theorem c7_idempotence_counterexample :
    tokenize (preprocessParameterString (preprocessParameterString (str "**a**"))) ≠
      tokenize (preprocessParameterString (str "**a**")) := by decide

/-- C7 (amended).  On inputs containing neither an asterisk nor an
underscore, preprocessing is the identity, so tokenizing after one or two
preprocessing passes agrees; and parsing the same syntax string twice
yields structurally equal variant lists. -/
theorem c7_idempotence_restricted :
    (∀ s : List Char, '*' ∉ s → '_' ∉ s →
      tokenize (preprocessParameterString (preprocessParameterString s)) =
        tokenize (preprocessParameterString s)) ∧
    (∀ s : List Char, parseSyntax s = parseSyntax s) := by
  refine ⟨fun s h1 h2 => ?_, fun s => rfl⟩
  rw [preprocess_id h1 h2, preprocess_id h1 h2]

/-- Witness for C7: the restricted idempotence applied to a concrete
marker-free parameter string. -/
theorem c7_idempotence_restricted_witness :
    tokenize (preprocessParameterString (preprocessParameterString (str "a : Text"))) =
      tokenize (preprocessParameterString (str "a : Text")) :=
  c7_idempotence_restricted.1 (str "a : Text") (by decide) (by decide)

/-- Every scan step on a non-empty input consumes at least one character:
the two-character sequences consume two, the single tokens one, spread at
least three, an identifier run its positive length, and an unrecognised
symbol is skipped (one character) instead of looping. -/
theorem scanIdentifierStep_progress (ctx : Option TokenType) (pos : Nat)
    (cs : List Char) : 1 ≤ (scanIdentifierStep ctx pos cs).2 := by
  unfold scanIdentifierStep
  split_ifs with h1 h2
  · omega
  · simp
  · have : (cs.takeWhile isIdentifierChar).length ≠ 0 := by
      simpa [List.length_eq_zero] using h2
    omega

theorem scanTokenStep_progress : ∀ (ctx : Option TokenType) (pos : Nat) (cs : List Char),
    cs ≠ [] → 1 ≤ (scanTokenStep ctx pos cs).2 := by
  intro ctx pos cs h
  cases cs with
  | nil => exact absurd rfl h
  | cons c rest =>
    simp only [scanTokenStep]
    by_cases h1 : isWsChar c = true
    · rw [if_pos h1]
    rw [if_neg h1]
    by_cases h2 : (c = '\\' && headCharIs rest '*') = true
    · rw [if_pos h2] <;> simp
    rw [if_neg h2]
    by_cases h3 : (c = '-' && headCharIs rest '>') = true
    · rw [if_pos h3] <;> simp
    rw [if_neg h3]
    by_cases h4 : c = ':'
    · rw [if_pos h4]
    rw [if_neg h4]
    by_cases h5 : c = ';'
    · rw [if_pos h5]
    rw [if_neg h5]
    by_cases h6 : c = '\x7b'
    · rw [if_pos h6]
    rw [if_neg h6]
    by_cases h7 : c = '\x7d'
    · rw [if_pos h7]
    rw [if_neg h7]
    by_cases h8 : c = '('
    · rw [if_pos h8]
    rw [if_neg h8]
    by_cases h9 : c = ')'
    · rw [if_pos h9]
    rw [if_neg h9]
    by_cases h10 : c = '*'
    · rw [if_pos h10]
    rw [if_neg h10]
    by_cases h11 : c = '<'
    · rw [if_pos h11]
    rw [if_neg h11]
    by_cases h12 : c = '>'
    · rw [if_pos h12]
    rw [if_neg h12]
    exact scanIdentifierStep_progress ctx pos (c :: rest)

/-- The tokenizer emits nothing on whitespace-only input. -/
theorem tokenizeAux_ws : ∀ (fuel : Nat) (cs : List Char) (pos : Nat)
    (ctx : Option TokenType),
    (∀ c ∈ cs, isWsChar c = true) → tokenizeAux fuel cs pos ctx = [] := by
  intro fuel
  induction fuel with
  | zero => intro cs pos ctx h; cases cs <;> rfl
  | succ k ih =>
    intro cs pos ctx h
    cases cs with
    | nil => rfl
    | cons c rest =>
      have hc : isWsChar c = true := h c (by simp)
      have hstep : scanTokenStep ctx pos (c :: rest) = (none, 1) := by
        simp [scanTokenStep, hc]
      simp only [tokenizeAux, hstep, List.drop_succ_cons, List.drop_zero]
      exact ih rest (pos + 1) ctx (fun x hx => h x (List.mem_cons_of_mem c hx))

/-- C9.  The tokenizer is total and terminating: every scan step on
remaining input consumes at least one character (so the scan loop always
progresses, an unrecognised symbol being skipped), the empty input yields
no tokens, and whitespace-only input yields no tokens. -/
theorem c9_tokenizer_total :
    (∀ (ctx : Option TokenType) (pos : Nat) (cs : List Char),
      cs ≠ [] → 1 ≤ (scanTokenStep ctx pos cs).2) ∧
    tokenize [] = [] ∧
    (∀ cs : List Char, (∀ c ∈ cs, isWsChar c = true) → tokenize cs = []) :=
  ⟨scanTokenStep_progress, rfl,
   fun cs h => tokenizeAux_ws cs.length cs 0 none h⟩

/-- Witness for C9: progress on a concrete unrecognised symbol and the
empty result on a concrete whitespace-only input. -/
theorem c9_tokenizer_total_witness :
    1 ≤ (scanTokenStep none 0 (str "?!")).2 ∧ tokenize (str " \t ") = [] :=
  ⟨c9_tokenizer_total.1 none 0 (str "?!") (by decide),
   c9_tokenizer_total.2.2 (str " \t ") (by decide)⟩

/-- Anchor for the unmatched-brace counts: starting at depth `d`, the
unmatched-open count minus the excess-close count equals `d` plus the
open-brace total minus the close-brace total, and the excess-close count
never exceeds the close-brace total.  This pins `braceScanNat` to the
standard meaning of unmatched opens and excess closes. -/
theorem braceScanNat_delta : ∀ (ts : List Token) (d : Nat),
    (((braceScanNat ts d).1 : Int) - ((braceScanNat ts d).2 : Int) =
      (d : Int) + (countOpens ts : Int) - (countCloses ts : Int)) ∧
    (braceScanNat ts d).2 ≤ countCloses ts := by
  intro ts
  induction ts with
  | nil => intro d; simp [braceScanNat, countOpens, countCloses]
  | cons t rest ih =>
    intro d
    by_cases ho : t.type = TokenType.openBrace
    · have hcn : ¬ t.type = TokenType.closeBrace := by simp [ho]
      have e1 : braceScanNat (t :: rest) d = braceScanNat rest (d + 1) := by
        simp [braceScanNat, ho]
      have e2 : countOpens (t :: rest) = countOpens rest + 1 := by
        simp [countOpens, List.countP_cons, ho]
      have e3 : countCloses (t :: rest) = countCloses rest := by
        simp [countCloses, List.countP_cons, hcn]
      obtain ⟨h1, h2⟩ := ih (d + 1)
      rw [e1, e2, e3]
      refine ⟨?_, h2⟩
      push_cast at h1 ⊢
      omega
    · by_cases hc : t.type = TokenType.closeBrace
      · have e2 : countOpens (t :: rest) = countOpens rest := by
          simp [countOpens, List.countP_cons, ho]
        have e3 : countCloses (t :: rest) = countCloses rest + 1 := by
          simp [countCloses, List.countP_cons, hc]
        cases d with
        | zero =>
          have e1 : braceScanNat (t :: rest) 0 =
              ((braceScanNat rest 0).1, (braceScanNat rest 0).2 + 1) := by
            simp [braceScanNat, ho, hc]
          obtain ⟨h1, h2⟩ := ih 0
          rw [e1, e2, e3]
          refine ⟨?_, by simpa using Nat.succ_le_succ h2⟩
          push_cast at h1 ⊢
          omega
        | succ n =>
          have e1 : braceScanNat (t :: rest) (n + 1) = braceScanNat rest n := by
            simp [braceScanNat, ho, hc]
          obtain ⟨h1, h2⟩ := ih n
          rw [e1, e2, e3]
          refine ⟨?_, by omega⟩
          push_cast at h1 ⊢
          omega
      · have e1 : braceScanNat (t :: rest) d = braceScanNat rest d := by
          simp [braceScanNat, ho, hc]
        have e2 : countOpens (t :: rest) = countOpens rest := by
          simp [countOpens, List.countP_cons, ho]
        have e3 : countCloses (t :: rest) = countCloses rest := by
          simp [countCloses, List.countP_cons, hc]
        obtain ⟨h1, h2⟩ := ih d
        rw [e1, e2, e3]
        exact ⟨h1, h2⟩

/-- With no opening parenthesis in the text, the parenthesis scan finds
neither a parameter start nor an end. -/
theorem scanParensGo_no_open : ∀ (cs : List Char) (i : Nat) (depth : Int),
    '(' ∉ cs → scanParensGo cs i depth none = (none, none) := by
  intro cs
  induction cs with
  | nil => intro i depth h; rfl
  | cons c rest ih =>
    intro i depth h
    have hco : ¬ (c = '(') := fun he => h (by simp [he])
    have hrest : '(' ∉ rest := fun hr => h (List.mem_cons_of_mem c hr)
    by_cases hcc : c = ')'
    · simp [scanParensGo, hco, hcc, ih _ _ hrest]
    · simp [scanParensGo, hco, hcc, ih _ _ hrest]

/-- Every variant text containing no opening parenthesis is assembled by
the 4-step parser with empty parameters, no return type, and the
"Missing opening parenthesis" malformation attached — for all such texts,
not only the concrete test input of the C1 theorem. -/
theorem processVariant_no_paren (cs : List Char) (h : '(' ∉ cs) :
    processVariant cs =
      ⟨cs, [], none, some ⟨true, [Issue.missingOpeningParenthesis]⟩⟩ := by
  unfold processVariant
  rw [scanParensGo_no_open cs 0 0 h]
